import Mathlib

/-!
# Verification of the crypto alert bot core (`src/bot.py`)

Shallow embedding of the bot's market-data pipeline, indicator engine and
signal-decision state machine.  Python floats are modelled as `ℚ`, UTC
timestamps as numbers (hours for candle indices, seconds for cooldown
timestamps, minutes for the daily-report clock), pandas dataframes as lists of
records, Python exceptions as `Except`, and `None` as `Option`.
-/

namespace Bot

/-- Canonical OHLCV candle.  `ts` is the candle's timestamp in whole hours
since the epoch (the 1H data the resampler consumes is hourly, with pandas
4-hour bin edges at multiples of 4 hours); `o h l c v` are the
open/high/low/close/volume columns. -/
structure Candle where
  ts : ℕ
  o : ℚ
  h : ℚ
  l : ℚ
  c : ℚ
  v : ℚ
deriving DecidableEq, Repr, Inhabited

/-- Maximum of a list of rationals (0 for the empty list, which never occurs
for the non-empty bucket groups it is applied to). -/
def listMax : List ℚ → ℚ
  | [] => 0
  | [x] => x
  | x :: y :: t => max x (listMax (y :: t))

/-- Minimum of a list of rationals (0 for the empty list). -/
def listMin : List ℚ → ℚ
  | [] => 0
  | [x] => x
  | x :: y :: t => min x (listMin (y :: t))

/-- Right edge of the right-closed, right-labeled 4-hour pandas bin containing
hour `t`: the bin `(b - 4, b]` with `b` a multiple of 4, so a timestamp lying
exactly on a bin edge belongs to the bin that edge labels. -/
def bucketEnd4h (t : ℕ) : ℕ :=
  if t % 4 = 0 then t else t + (4 - t % 4)

/-- The distinct 4H bucket labels of a candle list, in order of appearance
(for ascending input these are the ascending non-empty bins; pandas `dropna`
removes the all-NaN rows of empty bins). -/
def bucketLabels (cs : List Candle) : List ℕ :=
  (cs.map (fun x => bucketEnd4h x.ts)).dedup

/-- One aggregated 4H row, as `df1h["close"].resample("4h").ohlc()` plus
`df1h["volume"].resample("4h").sum()` build it: all four OHLC outputs are
derived from the fine *close* column (first/max/min/last close in the bin),
volume is the bin's volume sum. -/
def aggBucket (cs : List Candle) (b : ℕ) : Candle :=
  let g := cs.filter (fun x => bucketEnd4h x.ts = b)
  { ts := b
    o := (g.map (fun x => x.c)).headD 0
    h := listMax (g.map (fun x => x.c))
    l := listMin (g.map (fun x => x.c))
    c := (g.map (fun x => x.c)).getLastD 0
    v := (g.map (fun x => x.v)).sum }

/-- The aggregation step of `resample_to_4h` (bot.py lines 308-312): the
4H dataframe `df4` built from a 1H dataframe. -/
def resample4hAgg (cs : List Candle) : List Candle :=
  (bucketLabels cs).map (aggBucket cs)

/-- Modelled from the spec (claim C1's reference aggregation, which is *not*
what the code computes): bucket open = first fine **open**, high = max fine
**high**, low = min fine **low**, close = last fine close, volume = sum of
fine volumes, and a bucket is emitted only once its end boundary has fully
elapsed within the fine sequence (the partial trailing bucket is dropped). -/
def resample4hClaim (cs : List Candle) : List Candle :=
  let lastTs := (cs.map (fun x => x.ts)).getLastD 0
  ((bucketLabels cs).filter (fun b => b ≤ lastTs)).map (fun b =>
    let g := cs.filter (fun x => bucketEnd4h x.ts = b)
    { ts := b
      o := (g.map (fun x => x.o)).headD 0
      h := listMax (g.map (fun x => x.h))
      l := listMin (g.map (fun x => x.l))
      c := (g.map (fun x => x.c)).getLastD 0
      v := (g.map (fun x => x.v)).sum })

/-- Modelled from the amended claim: group maximal runs of consecutive fine
candles sharing a 4H bucket label; per bucket, open = first fine close,
high = max fine close, low = min fine close, close = last fine close,
volume = sum of volumes; every bucket containing at least one fine candle is
emitted, the trailing partial bucket included. -/
def resample4hRef : List Candle → List Candle
  | [] => []
  | x :: xs =>
    let b := bucketEnd4h x.ts
    let g := x :: xs.takeWhile (fun y => bucketEnd4h y.ts = b)
    let cl := g.map (fun y => y.c)
    { ts := b
      o := cl.headD 0
      h := listMax cl
      l := listMin cl
      c := cl.getLastD 0
      v := (g.map (fun y => y.v)).sum } ::
      resample4hRef (xs.dropWhile (fun y => bucketEnd4h y.ts = b))
termination_by l => l.length
decreasing_by
  simp only [List.length_cons]
  exact Nat.lt_succ_of_le (List.dropWhile_suffix _).length_le

/-- Outcome of one provider attempt: the attempt either raises a Python
exception (network error, HTTP error, malformed JSON, `KeyError` on the
symbol-map lookup, ...) or returns a parsed dataframe — possibly with zero
rows, which the provider helpers return as an *empty dataframe, not an
exception* (`if not data: return pd.DataFrame()`). -/
inductive ProvResult where
  | throws : ProvResult
  | rows : List Candle → ProvResult
deriving DecidableEq, Repr

/-- `fetch_ohlc_1h` for a rotation symbol (bot.py lines 234-247): try OKX;
on an exception fall through to Bybit, then Binance; whatever a non-throwing
attempt returns — including an empty dataframe — is returned as-is, and if
all three attempts throw the function returns an empty dataframe.
(`fetch_ohlc_1d` has the identical structure.) -/
def fetch_ohlc_1h (okx bybit binance : ProvResult) : List Candle :=
  match okx with
  | .rows r => r
  | .throws =>
    match bybit with
    | .rows r => r
    | .throws =>
      match binance with
      | .rows r => r
      | .throws => []

/-- Modelled from the spec (claim C2's rotator, which is *not* what the code
does): return the normalized output of the first binding whose attempt
succeeds with a non-empty parse, skipping throwing and zero-row attempts;
`none` models `NoDataError` when every binding fails. -/
def rotateClaim : List ProvResult → Option (List Candle)
  | [] => none
  | .throws :: rest => rotateClaim rest
  | .rows r :: rest => if r = [] then rotateClaim rest else some r

/-! ## Configuration, persisted state, indicated rows -/

/-- The environment-derived configuration constants of bot.py that the
claims exercise, passed explicitly. -/
structure Config where
  RSI_LEN : ℕ
  RSI_BUY : ℚ
  RSI_OPP : ℚ
  RSI_WIDE : Bool
  FAST : ℕ
  SLOW : ℕ
  SIGN : ℕ
  ENABLE_OPP : Bool
  OPP_COOLDOWN_H : ℕ
  ALLOW_1H_FALLBACK : Bool
  TREND_FILTER : String
deriving DecidableEq, Repr

/-- The persisted state dict (`{"last_daily": ..., "last_heartbeat": ...,
"cooldowns": {...}, "newsCooldowns": {...}}`).  The two day-stamp strings are
modelled by the UTC day index they serialize (`none` for the empty string
`""` written by `ensure_state`; `date.isoformat` is injective on dates);
the cooldown dicts map string keys to epoch-second timestamps. -/
structure BotState where
  last_daily : Option ℕ
  last_heartbeat : Option ℕ
  cooldowns : List (String × ℚ)
  newsCooldowns : List (String × ℚ)
deriving DecidableEq, Repr

/-- The default state written by `ensure_state` for a missing state file. -/
def defaultState : BotState :=
  { last_daily := none, last_heartbeat := none, cooldowns := [], newsCooldowns := [] }

/-- `state["cooldowns"].get(key, 0)`: dict lookup with default 0. -/
def cdGet (m : List (String × ℚ)) (k : String) : ℚ :=
  (((m.find? (fun p => p.1 = k)).map Prod.snd)).getD 0

/-- `state["cooldowns"][key] = val`: dict update. -/
def cdSet (m : List (String × ℚ)) (k : String) (val : ℚ) : List (String × ℚ) :=
  (k, val) :: m.filter (fun p => p.1 ≠ k)

/-- One indicated row: the `close` column together with the indicator columns
`add_indicators` appends. -/
structure IndRow where
  cl : ℚ
  rsi : ℚ
  macd : ℚ
  macd_signal : ℚ
  macd_hist : ℚ
deriving DecidableEq, Repr, Inhabited

/-- `df.iloc[-1]` on a non-empty indicated frame. -/
def lastRow (rows : List IndRow) : IndRow := rows.getLastD default

/-- `df.iloc[-2] if len(df) > 1 else df.iloc[-1]` (bot.py lines 343 and 361). -/
def prevRow (rows : List IndRow) : IndRow :=
  if 1 < rows.length then rows.dropLast.getLastD default else lastRow rows

/-- Daily trend state (bot.py lines 340-349). -/
inductive Trend where
  | UP
  | DOWN
  | FLAT
  | UNKNOWN
deriving DecidableEq, Repr

/-- `evaluate_signals`' trend classification (bot.py lines 338-349): UNKNOWN
when the indicated daily frame is `None` or empty; otherwise UP / DOWN / FLAT
from the last two indicated daily rows. -/
def classifyTrend (d1 : Option (List IndRow)) : Trend :=
  match d1 with
  | none => .UNKNOWN
  | some rows =>
    if rows = [] then .UNKNOWN
    else
      let last := lastRow rows
      let prev := prevRow rows
      if last.macd > last.macd_signal ∧ last.macd_hist > prev.macd_hist then .UP
      else if last.macd < last.macd_signal ∧ last.macd_hist < prev.macd_hist then .DOWN
      else .FLAT

/-! ## The decision core of `evaluate_signals` (bot.py lines 360-417) -/

/-- The typed skip/decision reasons `evaluate_signals` produces (the code
renders them as strings; the diagnostic detail tags of the `no-signal`
reason are kept as fixed tags, their numeric formatting elided). -/
inductive Reason where
  | fetchError
  | no1hData
  | no1dData
  | insufficient4hNoFallback
  | noIndicators (frame : String)
  | blockedBy1dTrend (t : Trend)
  | isBUY
  | isOPPORTUNITY
  | noSignal (details : List String)
deriving DecidableEq, Repr

/-- The result dict of `evaluate_signals`; keys absent from a given return
are `none` (for `.get(key, default)` reads, `buy`/`opp` default to `false`
and `trend1d`/`frameUsed`/`price` to `none`). -/
structure SigResult where
  ok : Bool
  reason : Reason
  price : Option ℚ
  buy : Bool
  opp : Bool
  trend1d : Option Trend
  frameUsed : Option String
deriving DecidableEq, Repr

/-- A failure return carrying only `ok` and `reason`. -/
def failRes (r : Reason) : SigResult :=
  { ok := false, reason := r, price := none, buy := false, opp := false,
    trend1d := none, frameUsed := none }

/-- `crossUp = last["macd"] >= last["macd_signal"] and prev["macd"] < prev["macd_signal"]`. -/
def crossUpB (last prev : IndRow) : Bool :=
  decide (last.macd ≥ last.macd_signal) && decide (prev.macd < prev.macd_signal)

/-- `histImproving = last["macd_hist"] > prev["macd_hist"]`. -/
def histImprovingB (last prev : IndRow) : Bool :=
  decide (last.macd_hist > prev.macd_hist)

/-- `rsiBuy = RSI_BUY - (5 if RSI_WIDE else 0)`. -/
def rsiBuyThr (cfg : Config) : ℚ := cfg.RSI_BUY - (if cfg.RSI_WIDE then 5 else 0)

/-- `rsiOpp = RSI_OPP - (5 if RSI_WIDE else 0)`. -/
def rsiOppThr (cfg : Config) : ℚ := cfg.RSI_OPP - (if cfg.RSI_WIDE then 5 else 0)

/-- `condBUY = (last["rsi"] <= rsiBuy) and crossUp`, before trend filtering. -/
def condBUY0 (cfg : Config) (last prev : IndRow) : Bool :=
  decide (last.rsi ≤ rsiBuyThr cfg) && crossUpB last prev

/-- `condOPP = ((last["rsi"] <= rsiOpp) and (last["macd"] > last["macd_signal"]))
or histImproving`, before trend filtering. -/
def condOPP0 (cfg : Config) (last prev : IndRow) : Bool :=
  (decide (last.rsi ≤ rsiOppThr cfg) && decide (last.macd > last.macd_signal))
    || histImprovingB last prev

/-- `condBUY` after the trend-filter block: both `buy_only_up` and `all_up`
force it false when the daily trend is not UP. -/
def gatedBUY (cfg : Config) (trend : Trend) (last prev : IndRow) : Bool :=
  if cfg.TREND_FILTER = "buy_only_up" then
    (if trend ≠ Trend.UP then false else condBUY0 cfg last prev)
  else if cfg.TREND_FILTER = "all_up" then
    (if trend ≠ Trend.UP then false else condBUY0 cfg last prev)
  else condBUY0 cfg last prev

/-- `condOPP` after the trend-filter block: only `all_up` forces it false
when the daily trend is not UP. -/
def gatedOPP (cfg : Config) (trend : Trend) (last prev : IndRow) : Bool :=
  if cfg.TREND_FILTER = "all_up" then
    (if trend ≠ Trend.UP then false else condOPP0 cfg last prev)
  else condOPP0 cfg last prev

/-- `trendOK`: in mode `off`, `(trend != "DOWN") or condOPP`; in every other
mode `True` (bot.py lines 386-388). -/
def trendOKB (cfg : Config) (trend : Trend) (last prev : IndRow) : Bool :=
  if cfg.TREND_FILTER = "off" then
    decide (trend ≠ Trend.DOWN) || gatedOPP cfg trend last prev
  else true

/-- `cooldown_active = nowu.timestamp() < state["cooldowns"].get(coinKey, 0)`,
with `now` in epoch seconds. -/
def cooldownActive (st : BotState) (symbol : String) (now : ℚ) : Bool :=
  decide (now < cdGet st.cooldowns (symbol ++ "_OPP"))

/-- The decision tail of `evaluate_signals` (bot.py lines 360-417), from the
point where the last/prev indicated rows of the intraday frame, the daily
trend and the frame label are in hand.  Python mutation of
`state["cooldowns"]` is modelled by returning the updated state. -/
def decideCore (cfg : Config) (symbol : String) (st : BotState) (now : ℚ)
    (trend : Trend) (used : String) (last prev : IndRow) : SigResult × BotState :=
  let price := last.cl
  if ¬trendOKB cfg trend last prev then
    ({ ok := false, reason := .blockedBy1dTrend trend, price := some price,
       buy := false, opp := false, trend1d := some trend, frameUsed := some used }, st)
  else
    let coinKey := symbol ++ "_OPP"
    let buy := gatedBUY cfg trend last prev
    let opp := if cfg.ENABLE_OPP then
        gatedOPP cfg trend last prev && !buy && !cooldownActive st symbol now
      else false
    if buy then
      ({ ok := true, reason := .isBUY, price := some price, buy := true, opp := false,
         trend1d := some trend, frameUsed := some used }, st)
    else if opp then
      ({ ok := true, reason := .isOPPORTUNITY, price := some price, buy := false, opp := true,
         trend1d := some trend, frameUsed := some used },
       { st with cooldowns := cdSet st.cooldowns coinKey (now + 3600 * cfg.OPP_COOLDOWN_H) })
    else
      let details :=
        (if rsiOppThr cfg < last.rsi then ["RSI>thr"] else []) ++
        (if ¬crossUpB last prev ∧ ¬buy then ["no MACD cross"] else []) ++
        (if ¬histImprovingB last prev ∧ ¬crossUpB last prev then ["hist not improving"] else [])
      ({ ok := false, reason := .noSignal details, price := some price, buy := false,
         opp := false, trend1d := some trend, frameUsed := some used }, st)

/-- The state after the OPPORTUNITY branch's cooldown write (bot.py line
406): `state["cooldowns"][coinKey] = (nowu + timedelta(hours=OPP_COOLDOWN_H)).timestamp()`
for a signal fired at `t0` epoch seconds. -/
def markOppFired (cfg : Config) (st : BotState) (symbol : String) (t0 : ℚ) : BotState :=
  { st with cooldowns := (cdSet st.cooldowns (symbol ++ "_OPP")
      (t0 + 3600 * cfg.OPP_COOLDOWN_H)) }

/-- bot.py's default configuration (the environment-variable defaults of
lines 16-49). -/
def cfg0 : Config :=
  ⟨14, 30, 40, false, 12, 26, 9, true, 6, true, "off"⟩

/-! ## Indicators (bot.py lines 274-302) -/

/-- The recursion of `Series.ewm(span=n, adjust=False).mean()` after the
seed: `e_t = a * x_t + (1 - a) * e_(t-1)`. -/
def emaAcc (a : ℚ) : ℚ → List ℚ → List ℚ
  | _, [] => []
  | prev, x :: xs =>
    let e := a * x + (1 - a) * prev
    e :: emaAcc a e xs

/-- `ema(s, n)` = `s.ewm(span=n, adjust=False).mean()`: smoothing factor
`a = 2/(n+1)`, seeded with the first value. -/
def emaList (a : ℚ) : List ℚ → List ℚ
  | [] => []
  | x :: xs => x :: emaAcc a x xs

/-- `ema` with a span, `a = 2/(n+1)`. -/
def emaSpan (n : ℕ) (xs : List ℚ) : List ℚ := emaList (2 / (n + 1)) xs

/-- `series.diff()` with the leading NaN dropped: element `i` is
`x[i+1] - x[i]`. -/
def diffs : List ℚ → List ℚ
  | [] => []
  | [_] => []
  | x :: y :: t => (y - x) :: diffs (y :: t)

/-- The float literal `1e-10` that `rsi` substitutes for a smoothed loss of
exactly 0. -/
def epsRSI : ℚ := 1 / 10 ^ 10

/-- `roll_down.replace(0, 1e-10)` applied elementwise. -/
def replaceZero (xs : List ℚ) : List ℚ :=
  xs.map (fun x => if x = 0 then epsRSI else x)

/-- `rsi(series, n)` (bot.py lines 277-284) on the positions after the
leading NaN of `series.diff()`: element `i` of the result is the RSI at
input position `i+1` (position 0 is NaN and is dropped by the caller's
`dropna`).  `rs = ema(up,n) / ema(down,n).replace(0, 1e-10)`;
`rsi = 100 - 100/(1+rs)`. -/
def rsiList (n : ℕ) (closes : List ℚ) : List ℚ :=
  let d := diffs closes
  let up := d.map (fun x => max x 0)
  let down := d.map (fun x => max (-x) 0)
  let ru := emaSpan n up
  let rd := replaceZero (emaSpan n down)
  (ru.zip rd).map (fun p => 100 - 100 / (1 + p.1 / p.2))

/-- `macd(series, fast, slow, signal)`: the macd line, signal line and
histogram columns. -/
def macdLists (fast slow sign : ℕ) (closes : List ℚ) : List ℚ × List ℚ × List ℚ :=
  let m := List.zipWith (fun x y => x - y) (emaSpan fast closes) (emaSpan slow closes)
  let s := emaSpan sign m
  let hh := List.zipWith (fun x y => x - y) m s
  (m, s, hh)

/-- Zip the close column with the four indicator columns into rows. -/
def zipRows : List ℚ → List ℚ → List ℚ → List ℚ → List ℚ → List IndRow
  | c :: cs, r :: rs, m :: ms, s :: ss, hh :: hs =>
    ⟨c, r, m, s, hh⟩ :: zipRows cs rs ms ss hs
  | _, _, _, _, _ => []

/-- `add_indicators(df)` (bot.py lines 292-302): `None` when the frame has
fewer than `max(SLOW+SIGN+5, 60)` rows; otherwise the indicator columns are
appended and `dropna()` drops exactly the first row (only `rsi` has a NaN,
from the leading NaN of `diff()`, and only at position 0). -/
def add_indicators (cfg : Config) (cs : List Candle) : Option (List IndRow) :=
  if cs.length < max (cfg.SLOW + cfg.SIGN + 5) 60 then none
  else
    let closes := cs.map (fun x => x.c)
    let r := rsiList cfg.RSI_LEN closes
    let msh := macdLists cfg.FAST cfg.SLOW cfg.SIGN closes
    some (zipRows (closes.drop 1) r (msh.1.drop 1) (msh.2.1.drop 1) (msh.2.2.drop 1))

/-- `resample_to_4h(df1h)` (bot.py lines 305-320): `(None, "no-1h")` for a
missing/empty frame; the 4H aggregate labeled `"4h"` when it has at least 60
rows; otherwise the original 1H frame labeled `"1h"` when fallback is
enabled, else `(None, "none")`. -/
def resample_to_4h (cfg : Config) (df1h : Option (List Candle)) :
    Option (List Candle) × String :=
  match df1h with
  | none => (none, "no-1h")
  | some cs =>
    if cs = [] then (none, "no-1h")
    else
      let df4 := resample4hAgg cs
      if df4.length < 60 then
        if cfg.ALLOW_1H_FALLBACK then (some cs, "1h")
        else (none, "none")
      else (some df4, "4h")

/-! ## `evaluate_signals` and the `run_once` signal loop -/

/-- `evaluate_signals(symbol, state, nowu)` (bot.py lines 325-417).  The two
candle fetches are passed in as `Except`-valued outcomes (`Except.error`
models a raised exception, caught by the function's own `try` and turned
into a `fetch-error` skip). -/
def evaluate_signals (cfg : Config) (f1h f1d : Except String (List Candle))
    (symbol : String) (st : BotState) (now : ℚ) : SigResult × BotState :=
  match f1h, f1d with
  | .error _, _ => (failRes .fetchError, st)
  | _, .error _ => (failRes .fetchError, st)
  | .ok df1h, .ok df1d =>
    if df1h = [] then (failRes .no1hData, st)
    else if df1d = [] then (failRes .no1dData, st)
    else
      let trend := classifyTrend (add_indicators cfg df1d)
      let rx := resample_to_4h cfg (some df1h)
      match rx.1 with
      | none => (failRes .insufficient4hNoFallback, st)
      | some dfX =>
        match add_indicators cfg dfX with
        | none => (failRes (.noIndicators rx.2), st)
        | some x =>
          if x = [] then (failRes (.noIndicators rx.2), st)
          else decideCore cfg symbol st now trend rx.2 (lastRow x) (prevRow x)

/-- The per-symbol signal loop of `run_once` (bot.py lines 513-529): each
coin is evaluated in turn against the threaded state; a result is collected
for every coin (a failing coin is printed and skipped with `continue`). -/
def runSignals (cfg : Config) (env : String → Except String (List Candle) × Except String (List Candle))
    (coins : List String) (st : BotState) (now : ℚ) : List SigResult × BotState :=
  match coins with
  | [] => ([], st)
  | sym :: rest =>
    let fr := env sym
    let r1 := evaluate_signals cfg fr.1 fr.2 sym st now
    let rr := runSignals cfg env rest r1.2 now
    (r1.1 :: rr.1, rr.2)

/-! ## Persisted state loading and the daily-report stamp -/

/-- `load_state()` (bot.py lines 70-79): `ensure_state()` first writes the
default JSON record when the state file is missing; `json.load` then parses
the file's content — `parse` models `json.load`, with `none` for the
`JSONDecodeError` it raises on corrupt content, which `load_state` does
*not* catch (`Except.error` propagates out of the call). -/
def load_state (parse : String → Option BotState) (defaultSer : String)
    (file : Option String) : Except Unit BotState :=
  let content := match file with
    | none => defaultSer
    | some s => s
  match parse content with
  | some st => .ok st
  | none => .error ()

/-- A concrete `json.load` stand-in: parses exactly the serialized default
record, fails on anything else. -/
def parseStub : String → Option BotState :=
  fun s => if s = "default-json" then some defaultState else none

/-- The UTC calendar date of a time given in minutes since the epoch
(`now_utc().date()`). -/
def utcDay (now : ℕ) : ℕ := now / 1440

/-- `should_send_daily_report(state)` (bot.py lines 422-424):
`state.get("last_daily", "") != now_utc().date().isoformat()` — the UTC
date, at any hour. -/
def should_send_daily_report (st : BotState) (now : ℕ) : Bool :=
  st.last_daily ≠ some (utcDay now)

/-- `state["last_daily"] = nowu.date().isoformat()` (bot.py line 539). -/
def markDailySent (st : BotState) (now : ℕ) : BotState :=
  { st with last_daily := some (utcDay now) }

/-- Modelled from the spec (claim C10's due check, which is *not* what the
code computes): the calendar date is taken in the configured reporting
timezone (`LOCAL_TZ`, default Europe/Rome — modelled at its standard UTC+1
offset), and the check is true only from a configured hour boundary
`reportHour` onwards on a not-yet-reported local date. -/
def specDailyDue (reportHour : ℕ) (st : BotState) (now : ℕ) : Bool :=
  let localMin := now + 60
  decide (st.last_daily ≠ some (localMin / 1440)) && decide (reportHour ≤ localMin % 1440 / 60)

/-! ## Theorems -/

/-- C2 — counterexample.  Bindings `[OKX throws, Bybit returns 0 rows,
Binance returns a valid row]`: the claim (and the spec scenario) prescribe
Binance's normalized output, but `fetch_ohlc_1h` returns Bybit's empty
dataframe — a zero-row success is *not* skipped in favor of the next
binding, and no `NoDataError` exists. -/
theorem fetch_rotation_counterexample :
    fetch_ohlc_1h .throws (.rows []) (.rows [⟨1, 10, 30, 5, 20, 1⟩]) = [] ∧
    rotateClaim [.throws, .rows [], .rows [⟨1, 10, 30, 5, 20, 1⟩]]
      = some [⟨1, 10, 30, 5, 20, 1⟩] ∧
    ([] : List Candle) ≠ [⟨1, 10, 30, 5, 20, 1⟩] := by
  refine ⟨rfl, rfl, ?_⟩
  intro h
  exact List.noConfusion h

/-- C2 — amended: the rotation advances only past *throwing* attempts; the
first non-throwing attempt's parsed dataframe is returned as-is, zero rows
included, and when all three bindings throw the call returns an empty
dataframe (the caller later maps an empty frame to a `no-data` skip; no
`NoDataError` is raised). -/
theorem fetch_rotation_amended (a b c : ProvResult) :
    (∀ r, a = .rows r → fetch_ohlc_1h a b c = r) ∧
    (a = .throws → ∀ r, b = .rows r → fetch_ohlc_1h a b c = r) ∧
    (a = .throws → b = .throws → ∀ r, c = .rows r → fetch_ohlc_1h a b c = r) ∧
    (a = .throws → b = .throws → c = .throws → fetch_ohlc_1h a b c = []) := by
  cases a <;> cases b <;> cases c <;>
    simp [fetch_ohlc_1h]

/-- C2 — witness: a throwing OKX attempt falls through to Bybit's rows. -/
theorem fetch_rotation_amended_witness :
    fetch_ohlc_1h .throws (.rows [⟨1, 10, 30, 5, 20, 1⟩]) .throws = [⟨1, 10, 30, 5, 20, 1⟩] :=
  (fetch_rotation_amended .throws (.rows [⟨1, 10, 30, 5, 20, 1⟩]) .throws).2.1 rfl _ rfl

/-- C8 — counterexample.  With a concrete `json.load` model that parses the
default record and fails on anything else: corrupt state-file contents make
`load_state` raise (`json.load` is not wrapped in a `try`), instead of
returning the default-initialized record the claim prescribes; only the
*missing*-file half of the claim holds. -/
theorem load_state_counterexample :
    load_state parseStub "default-json" (some "not json") = .error () ∧
    load_state parseStub "default-json" (some "not json") ≠ .ok defaultState ∧
    load_state parseStub "default-json" none = .ok defaultState := by
  refine ⟨rfl, ?_, rfl⟩
  intro h
  rw [show load_state parseStub "default-json" (some "not json") = .error () from rfl] at h
  exact Except.noConfusion h

/-- C8 — amended: a missing state file yields the default-initialized empty
record (`ensure_state` writes the default JSON, which `json.load` then
parses back); corrupt (unparseable) contents raise a parse error that
propagates out of `load_state` and aborts the run — corruption is *not*
swallowed. -/
theorem load_state_amended (parse : String → Option BotState) (dSer : String) :
    (parse dSer = some defaultState → load_state parse dSer none = .ok defaultState) ∧
    (∀ s, parse s = none → load_state parse dSer (some s) = .error ()) := by
  constructor
  · intro hp
    simp [load_state, hp]
  · intro s hp
    simp [load_state, hp]

/-- C8 — witness: the default-JSON round trip returns the default record. -/
theorem load_state_amended_witness :
    load_state parseStub "default-json" none = .ok defaultState :=
  (load_state_amended parseStub "default-json").1 rfl

/-- C10 — counterexample.  At 23:30 UTC with the current UTC date already
stamped, the code's due check is false although in the configured
Europe/Rome zone (UTC+1) a new calendar date has begun (spec check true);
at 01:00 UTC on a fresh date the code's check is true although a configured
08:00 boundary has not been reached (spec check false): the code uses the
UTC date and has no hour boundary. -/
theorem daily_report_counterexample :
    should_send_daily_report { defaultState with last_daily := some 0 } 1410 = false ∧
    specDailyDue 0 { defaultState with last_daily := some 0 } 1410 = true ∧
    should_send_daily_report defaultState 60 = true ∧
    specDailyDue 8 defaultState 60 = false := by
  decide

/-- C10 — amended: the due check is true exactly when the stamped last-daily
date differs from the current **UTC** calendar date, at any hour (no
configured-timezone conversion, no hour boundary); after the report is
marked sent, every later evaluation on the same UTC date returns false, and
the check's value depends on the evaluation time only through its UTC
date. -/
theorem daily_report_utc_once (st : BotState) (t0 t : ℕ) :
    (utcDay t = utcDay t0 → should_send_daily_report (markDailySent st t0) t = false) ∧
    (utcDay t ≠ utcDay t0 → should_send_daily_report (markDailySent st t0) t = true) ∧
    (∀ t', utcDay t' = utcDay t → should_send_daily_report st t' = should_send_daily_report st t) := by
  refine ⟨?_, ?_, ?_⟩
  · intro hsame
    simp [should_send_daily_report, markDailySent, hsame]
  · intro hdiff
    simp [should_send_daily_report, markDailySent]
    exact fun h => hdiff h.symm
  · intro t' ht
    simp [should_send_daily_report, ht]

/-- C10 — witness: marking at minute 100 of day 0 silences the check for the
rest of day 0 and re-arms it on day 1. -/
theorem daily_report_utc_once_witness :
    should_send_daily_report (markDailySent defaultState 100) 1439 = false ∧
    should_send_daily_report (markDailySent defaultState 100) 1440 = true :=
  ⟨(daily_report_utc_once defaultState 100 1439).1 (by decide),
   (daily_report_utc_once defaultState 100 1440).2.1 (by decide)⟩

/-- Dict update hits the written key. -/
theorem cdGet_cdSet_same (m : List (String × ℚ)) (k : String) (v : ℚ) :
    cdGet (cdSet m k v) k = v := by
  simp [cdGet, cdSet, List.find?]

/-- Removing the entries of a different key does not change a lookup. -/
theorem find?_filter_ne (m : List (String × ℚ)) (k k' : String) (hne : k' ≠ k) :
    (m.filter (fun p => p.1 ≠ k)).find? (fun p => p.1 = k')
      = m.find? (fun p => p.1 = k') := by
  induction m with
  | nil => rfl
  | cons x xs ih =>
    by_cases hx : x.1 = k
    · have hx' : ¬x.1 = k' := by
        intro h
        exact hne (by rw [← h, hx])
      rw [List.filter_cons_of_neg (by simp [hx]),
        List.find?_cons_of_neg _ (by simp [hx'])]
      exact ih
    · rw [List.filter_cons_of_pos (by simp [hx])]
      by_cases hx' : x.1 = k'
      · rw [List.find?_cons_of_pos _ (by simp [hx']),
          List.find?_cons_of_pos _ (by simp [hx'])]
      · rw [List.find?_cons_of_neg _ (by simp [hx']),
          List.find?_cons_of_neg _ (by simp [hx'])]
        exact ih

/-- Dict update leaves every other key unchanged. -/
theorem cdGet_cdSet_other (m : List (String × ℚ)) (k k' : String) (v : ℚ)
    (hne : k' ≠ k) : cdGet (cdSet m k v) k' = cdGet m k' := by
  unfold cdGet cdSet
  rw [List.find?_cons_of_neg _ (by simp; exact fun h => hne h.symm),
    find?_filter_ne m k k' hne]

/-- C3 — decision resolution and its frame effect (bot.py lines 390-417):
if `condBUY` survives gating (trend filter and the `trendOK` block) the
decision is BUY and the state is returned untouched; otherwise, when the
opportunity feature is enabled, gated `condOPP` holds and the cooldown check
passes, the decision is OPPORTUNITY and exactly the `symbol_OPP` cooldown
entry is set to `now + OPP_COOLDOWN_H` hours; in every remaining case the
decision is neither BUY nor OPPORTUNITY and the state is returned
untouched. -/
theorem decision_resolution (cfg : Config) (symbol : String) (st : BotState)
    (now : ℚ) (trend : Trend) (used : String) (last prev : IndRow) :
    (trendOKB cfg trend last prev = true ∧ gatedBUY cfg trend last prev = true →
      (decideCore cfg symbol st now trend used last prev).1.reason = .isBUY ∧
      (decideCore cfg symbol st now trend used last prev).1.buy = true ∧
      (decideCore cfg symbol st now trend used last prev).1.opp = false ∧
      (decideCore cfg symbol st now trend used last prev).2 = st) ∧
    (¬(trendOKB cfg trend last prev = true ∧ gatedBUY cfg trend last prev = true) →
     cfg.ENABLE_OPP = true → gatedOPP cfg trend last prev = true →
     cooldownActive st symbol now = false →
      (decideCore cfg symbol st now trend used last prev).1.reason = .isOPPORTUNITY ∧
      (decideCore cfg symbol st now trend used last prev).1.opp = true ∧
      (decideCore cfg symbol st now trend used last prev).1.buy = false ∧
      (decideCore cfg symbol st now trend used last prev).2 =
        { st with cooldowns := (cdSet st.cooldowns (symbol ++ "_OPP")
            (now + 3600 * cfg.OPP_COOLDOWN_H)) }) ∧
    (¬(trendOKB cfg trend last prev = true ∧ gatedBUY cfg trend last prev = true) →
     ¬(cfg.ENABLE_OPP = true ∧ gatedOPP cfg trend last prev = true ∧
       cooldownActive st symbol now = false) →
      (decideCore cfg symbol st now trend used last prev).1.buy = false ∧
      (decideCore cfg symbol st now trend used last prev).1.opp = false ∧
      (decideCore cfg symbol st now trend used last prev).2 = st) := by
  refine ⟨?_, ?_, ?_⟩
  · rintro ⟨h1, h2⟩
    simp [decideCore, h1, h2]
  · intro hnb he ho hc
    have h1 : trendOKB cfg trend last prev = true := by
      unfold trendOKB
      split
      · simp [ho]
      · rfl
    have h2 : gatedBUY cfg trend last prev = false := by
      cases h : gatedBUY cfg trend last prev
      · rfl
      · exact absurd ⟨h1, h⟩ hnb
    simp [decideCore, h1, h2, he, ho, hc]
  · intro hnb hno
    rcases h1 : trendOKB cfg trend last prev with _ | _
    · simp [decideCore, h1]
    · rcases h2 : gatedBUY cfg trend last prev with _ | _
      · rcases he : cfg.ENABLE_OPP with _ | _
        · simp [decideCore, h1, h2, he]
        · rcases ho : gatedOPP cfg trend last prev with _ | _
          · simp [decideCore, h1, h2, he, ho]
          · rcases hc : cooldownActive st symbol now with _ | _
            · exact absurd ⟨he, ho, hc⟩ hno
            · simp [decideCore, h1, h2, he, ho, hc]
      · exact absurd ⟨h1, h2⟩ hnb

/-- C3 — witness: with the default configuration, an oversold MACD cross-up
in an UP daily trend resolves to BUY and leaves the state untouched. -/
theorem decision_resolution_witness :
    (decideCore cfg0 "BTC" defaultState 0 .UP "4h"
      ⟨100, 25, 1/20, 0, 1/20⟩ ⟨99, 35, -1/10, 0, 0⟩).1.reason = .isBUY ∧
    (decideCore cfg0 "BTC" defaultState 0 .UP "4h"
      ⟨100, 25, 1/20, 0, 1/20⟩ ⟨99, 35, -1/10, 0, 0⟩).2 = defaultState := by
  have hd := (decision_resolution cfg0 "BTC" defaultState 0 .UP "4h"
    ⟨100, 25, 1/20, 0, 1/20⟩ ⟨99, 35, -1/10, 0, 0⟩).1
    ⟨by norm_num [trendOKB, cfg0]; exact Or.inl (by decide),
     by norm_num [gatedBUY, condBUY0, crossUpB, rsiBuyThr, cfg0]⟩
  exact ⟨hd.1, hd.2.2.2⟩

/-- C4 — the opportunity cooldown window (bot.py lines 394-406): once the
`symbol_OPP` cooldown has been set at time `t0` (epoch seconds) with the
configured `OPP_COOLDOWN_H` hours, an evaluation at any `t` before
`t0 + 3600·H` finds the cooldown active and the resulting `opp` outcome is
false regardless of the intraday conditions, while an evaluation at any `t`
after `t0 + 3600·H` finds the cooldown inactive; and the `buy` outcome never
depends on the cooldown state. -/
theorem opp_cooldown_window (cfg : Config) (symbol : String) (st : BotState)
    (t0 t : ℚ) (trend : Trend) (used : String) (last prev : IndRow) :
    (t < t0 + 3600 * cfg.OPP_COOLDOWN_H →
      cooldownActive (markOppFired cfg st symbol t0) symbol t = true ∧
      (decideCore cfg symbol (markOppFired cfg st symbol t0) t trend used last prev).1.opp
        = false) ∧
    (t0 + 3600 * cfg.OPP_COOLDOWN_H < t →
      cooldownActive (markOppFired cfg st symbol t0) symbol t = false) ∧
    (∀ st₁ st₂ : BotState,
      (decideCore cfg symbol st₁ t trend used last prev).1.buy
        = (decideCore cfg symbol st₂ t trend used last prev).1.buy) := by
  refine ⟨?_, ?_, ?_⟩
  · intro hlt
    have hact : cooldownActive (markOppFired cfg st symbol t0) symbol t = true := by
      simp [cooldownActive, markOppFired, cdGet_cdSet_same, hlt]
    refine ⟨hact, ?_⟩
    cases h1 : trendOKB cfg trend last prev
    · simp [decideCore, h1]
    · cases h2 : gatedBUY cfg trend last prev
      · simp [decideCore, h1, h2, hact]
      · simp [decideCore, h1, h2]
  · intro hgt
    simp [cooldownActive, markOppFired, cdGet_cdSet_same, not_lt.mpr hgt.le]
  · intro st₁ st₂
    cases h1 : trendOKB cfg trend last prev
    · simp [decideCore, h1]
    · cases h2 : gatedBUY cfg trend last prev
      · simp [decideCore, h1, h2,
          apply_ite (fun p : SigResult × BotState => p.1.buy)]
      · simp [decideCore, h1, h2]

/-- C4 — witness: with the default 6-hour window, a cooldown set at `t0 = 0`
is active at `t = 100` (forcing `opp` false) and inactive at `t = 30000`. -/
theorem opp_cooldown_window_witness :
    (cooldownActive (markOppFired cfg0 defaultState "BTC" 0) "BTC" 100 = true ∧
      (decideCore cfg0 "BTC" (markOppFired cfg0 defaultState "BTC" 0) 100 .UP "4h"
        ⟨100, 35, 1/20, 0, 1/20⟩ ⟨99, 35, -1/10, 0, 0⟩).1.opp = false) ∧
    cooldownActive (markOppFired cfg0 defaultState "BTC" 0) "BTC" 30000 = false :=
  ⟨(opp_cooldown_window cfg0 "BTC" defaultState 0 100 .UP "4h"
      ⟨100, 35, 1/20, 0, 1/20⟩ ⟨99, 35, -1/10, 0, 0⟩).1 (by norm_num [cfg0]),
   (opp_cooldown_window cfg0 "BTC" defaultState 0 30000 .UP "4h"
      ⟨100, 35, 1/20, 0, 1/20⟩ ⟨99, 35, -1/10, 0, 0⟩).2.1 (by norm_num [cfg0])⟩

/-- C5 — the `off` trend-filter mode (bot.py lines 385-391): when the daily
trend is DOWN and the (unfiltered) `condOPP` is false, the symbol is blocked
— the result is a no-signal `blocked-by-1D-trend` outcome with neither BUY
nor OPPORTUNITY and an untouched state, even when `condBUY` holds; when the
trend is not DOWN or `condOPP` holds, the `off` mode changes neither
condition and the `trendOK` block passes. -/
theorem trend_filter_off_mode (cfg : Config) (symbol : String) (st : BotState)
    (now : ℚ) (trend : Trend) (used : String) (last prev : IndRow)
    (hoff : cfg.TREND_FILTER = "off") :
    (trend = .DOWN → condOPP0 cfg last prev = false →
      (decideCore cfg symbol st now trend used last prev).1.ok = false ∧
      (decideCore cfg symbol st now trend used last prev).1.reason
        = .blockedBy1dTrend .DOWN ∧
      (decideCore cfg symbol st now trend used last prev).1.buy = false ∧
      (decideCore cfg symbol st now trend used last prev).1.opp = false ∧
      (decideCore cfg symbol st now trend used last prev).2 = st) ∧
    (trend ≠ .DOWN ∨ condOPP0 cfg last prev = true →
      gatedBUY cfg trend last prev = condBUY0 cfg last prev ∧
      gatedOPP cfg trend last prev = condOPP0 cfg last prev ∧
      trendOKB cfg trend last prev = true) := by
  have hng : gatedOPP cfg trend last prev = condOPP0 cfg last prev := by
    simp [gatedOPP, hoff]
  have hnb : gatedBUY cfg trend last prev = condBUY0 cfg last prev := by
    simp [gatedBUY, hoff]
  refine ⟨?_, ?_⟩
  · intro hdown hno
    subst hdown
    have hok : trendOKB cfg .DOWN last prev = false := by
      simp [trendOKB, hoff, hng, hno]
    simp [decideCore, hok]
  · intro h
    refine ⟨hnb, hng, ?_⟩
    rcases h with h | h
    · simp [trendOKB, hoff, h]
    · simp [trendOKB, hoff, hng, h]

/-- C5 — witness: default configuration (mode `off`), DOWN trend, `condBUY`
true but `condOPP` false: the evaluation is blocked; and with an UP trend
the mode suppresses nothing. -/
theorem trend_filter_off_mode_witness :
    condBUY0 cfg0 ⟨100, 25, 0, 0, 0⟩ ⟨99, 50, -1, 0, 0⟩ = true ∧
    condOPP0 cfg0 ⟨100, 25, 0, 0, 0⟩ ⟨99, 50, -1, 0, 0⟩ = false ∧
    (decideCore cfg0 "BTC" defaultState 0 .DOWN "4h"
      ⟨100, 25, 0, 0, 0⟩ ⟨99, 50, -1, 0, 0⟩).1.reason = .blockedBy1dTrend .DOWN ∧
    (decideCore cfg0 "BTC" defaultState 0 .DOWN "4h"
      ⟨100, 25, 0, 0, 0⟩ ⟨99, 50, -1, 0, 0⟩).1.buy = false ∧
    trendOKB cfg0 .UP ⟨100, 25, 0, 0, 0⟩ ⟨99, 50, -1, 0, 0⟩ = true := by
  have hopp : condOPP0 cfg0 ⟨100, 25, 0, 0, 0⟩ ⟨99, 50, -1, 0, 0⟩ = false := by
    norm_num [condOPP0, histImprovingB, rsiOppThr, cfg0]
  have hbuy : condBUY0 cfg0 ⟨100, 25, 0, 0, 0⟩ ⟨99, 50, -1, 0, 0⟩ = true := by
    norm_num [condBUY0, crossUpB, rsiBuyThr, cfg0]
  have hb := (trend_filter_off_mode cfg0 "BTC" defaultState 0 .DOWN "4h"
    ⟨100, 25, 0, 0, 0⟩ ⟨99, 50, -1, 0, 0⟩ rfl).1 rfl hopp
  have hu := (trend_filter_off_mode cfg0 "BTC" defaultState 0 .UP "4h"
    ⟨100, 25, 0, 0, 0⟩ ⟨99, 50, -1, 0, 0⟩ rfl).2 (Or.inl (by decide))
  exact ⟨hbuy, hopp, hb.2.1, hb.2.2.1, hu.2.2⟩

/-- C6 — daily trend classification (bot.py lines 338-349): on a non-empty
indicated daily sequence the trend is UP iff `macd[last] > signal[last]` and
`hist[last] > hist[prev]`, DOWN iff `macd[last] < signal[last]` and
`hist[last] < hist[prev]`, and FLAT exactly otherwise (with `prev = last`
when only one indicated row remains); and the trend is UNKNOWN exactly when
the daily frame could not be indicated (`None`) or is empty. -/
theorem daily_trend_classification :
    (∀ rows : List IndRow, rows ≠ [] →
      ((classifyTrend (some rows) = .UP ↔
          (lastRow rows).macd > (lastRow rows).macd_signal ∧
          (lastRow rows).macd_hist > (prevRow rows).macd_hist) ∧
       (classifyTrend (some rows) = .DOWN ↔
          (lastRow rows).macd < (lastRow rows).macd_signal ∧
          (lastRow rows).macd_hist < (prevRow rows).macd_hist) ∧
       (classifyTrend (some rows) = .FLAT ↔
          ¬((lastRow rows).macd > (lastRow rows).macd_signal ∧
            (lastRow rows).macd_hist > (prevRow rows).macd_hist) ∧
          ¬((lastRow rows).macd < (lastRow rows).macd_signal ∧
            (lastRow rows).macd_hist < (prevRow rows).macd_hist)))) ∧
    (∀ d1 : Option (List IndRow),
      classifyTrend d1 = .UNKNOWN ↔ d1 = none ∨ d1 = some []) := by
  constructor
  · intro rows hne
    simp only [classifyTrend, if_neg hne]
    by_cases hUP : (lastRow rows).macd > (lastRow rows).macd_signal ∧
        (lastRow rows).macd_hist > (prevRow rows).macd_hist
    · rw [if_pos hUP]
      exact ⟨iff_of_true rfl hUP,
        iff_of_false (by decide) (fun hd => lt_asymm hd.1 hUP.1),
        iff_of_false (by decide) (fun hf => hf.1 hUP)⟩
    · rw [if_neg hUP]
      by_cases hDN : (lastRow rows).macd < (lastRow rows).macd_signal ∧
          (lastRow rows).macd_hist < (prevRow rows).macd_hist
      · rw [if_pos hDN]
        exact ⟨iff_of_false (by decide) hUP, iff_of_true rfl hDN,
          iff_of_false (by decide) (fun hf => hf.2 hDN)⟩
      · rw [if_neg hDN]
        exact ⟨iff_of_false (by decide) hUP, iff_of_false (by decide) hDN,
          iff_of_true rfl ⟨hUP, hDN⟩⟩
  · intro d1
    match d1 with
    | none => simp [classifyTrend]
    | some rows =>
      by_cases hne : rows = []
      · subst hne
        simp [classifyTrend]
      · have hr : (some rows = none ∨ some rows = some ([] : List IndRow)) ↔ False := by
          simp [hne]
        rw [hr, iff_false]
        simp only [classifyTrend, if_neg hne]
        by_cases hUP : (lastRow rows).macd > (lastRow rows).macd_signal ∧
            (lastRow rows).macd_hist > (prevRow rows).macd_hist
        · rw [if_pos hUP]
          decide
        · rw [if_neg hUP]
          by_cases hDN : (lastRow rows).macd < (lastRow rows).macd_signal ∧
              (lastRow rows).macd_hist < (prevRow rows).macd_hist
          · rw [if_pos hDN]
            decide
          · rw [if_neg hDN]
            decide

/-- C6 — witness: a concrete two-row indicated daily frame with a positive
macd-signal gap and a rising histogram classifies UP, and a missing daily
frame classifies UNKNOWN. -/
theorem daily_trend_classification_witness :
    classifyTrend (some [⟨100, 50, 2, 1, 3⟩, ⟨101, 50, 5, 1, 4⟩]) = .UP ∧
    classifyTrend (none : Option (List IndRow)) = .UNKNOWN := by
  constructor
  · refine ((daily_trend_classification.1 [⟨100, 50, 2, 1, 3⟩, ⟨101, 50, 5, 1, 4⟩]
      (by simp)).1).mpr ?_
    constructor
    · show (lastRow _).macd > (lastRow _).macd_signal
      norm_num [lastRow, List.getLastD]
    · show (lastRow _).macd_hist > (prevRow _).macd_hist
      norm_num [lastRow, prevRow, List.getLastD, List.dropLast]
  · exact (daily_trend_classification.2 none).mpr (Or.inl rfl)

/-- The EMA recursion keeps non-negative inputs non-negative for a smoothing
factor in `[0, 1]`. -/
theorem emaAcc_nonneg (a : ℚ) (h0 : 0 ≤ a) (h1 : a ≤ 1) :
    ∀ (xs : List ℚ) (prev : ℚ), 0 ≤ prev → (∀ x ∈ xs, 0 ≤ x) →
      ∀ y ∈ emaAcc a prev xs, 0 ≤ y := by
  intro xs
  induction xs with
  | nil =>
    intro prev _ _ y hy
    simp [emaAcc] at hy
  | cons x t ih =>
    intro prev hp hxs y hy
    simp only [emaAcc] at hy
    have hx0 : 0 ≤ x := hxs x (by simp)
    have he : 0 ≤ a * x + (1 - a) * prev := by
      have h2 := mul_nonneg h0 hx0
      have h3 := mul_nonneg (by linarith : (0 : ℚ) ≤ 1 - a) hp
      linarith
    rcases List.mem_cons.mp hy with h | h
    · exact h ▸ he
    · exact ih _ he (fun z hz => hxs z (by simp [hz])) y h

/-- `ema` of a non-negative series is non-negative for a smoothing factor in
`[0, 1]`. -/
theorem emaList_nonneg (a : ℚ) (h0 : 0 ≤ a) (h1 : a ≤ 1) (xs : List ℚ)
    (hxs : ∀ x ∈ xs, 0 ≤ x) : ∀ y ∈ emaList a xs, 0 ≤ y := by
  cases xs with
  | nil => simp [emaList]
  | cons x t =>
    intro y hy
    simp only [emaList] at hy
    rcases List.mem_cons.mp hy with h | h
    · exact h ▸ hxs x (by simp)
    · exact emaAcc_nonneg a h0 h1 t x (hxs x (by simp))
        (fun z hz => hxs z (by simp [hz])) y h

/-- After `replace(0, 1e-10)`, a non-negative smoothed-loss column is
strictly positive everywhere. -/
theorem replaceZero_pos (xs : List ℚ) (hxs : ∀ x ∈ xs, 0 ≤ x) :
    ∀ y ∈ replaceZero xs, 0 < y := by
  intro y hy
  simp only [replaceZero, List.mem_map] at hy
  obtain ⟨x, hx, rfl⟩ := hy
  by_cases hx0 : x = 0
  · rw [if_pos hx0]
    norm_num [epsRSI]
  · rw [if_neg hx0]
    exact lt_of_le_of_ne (hxs x hx) (Ne.symm hx0)

/-- C7 — RSI range invariant (bot.py lines 277-284): for any finite close
series and smoothing length `n ≥ 1` (`RSI_LEN` defaults to 14), every RSI
value produced lies in `[0, 100]`; the smoothed loss is replaced by the tiny
positive `1e-10` when it is exactly 0, so the quotient is always defined. -/
theorem rsi_in_range (n : ℕ) (hn : 1 ≤ n) (closes : List ℚ) :
    ∀ r ∈ rsiList n closes, 0 ≤ r ∧ r ≤ 100 := by
  intro r hr
  have ha0 : (0 : ℚ) ≤ 2 / (n + 1) := by positivity
  have ha1 : (2 : ℚ) / (n + 1) ≤ 1 := by
    rw [div_le_one (by positivity)]
    have hcast : (1 : ℚ) ≤ n := by exact_mod_cast hn
    linarith
  simp only [rsiList, List.mem_map] at hr
  obtain ⟨⟨u, d⟩, hmem, rfl⟩ := hr
  obtain ⟨hu, hd⟩ := List.of_mem_zip hmem
  have hup : ∀ x ∈ (diffs closes).map (fun x => max x 0), 0 ≤ x := by
    intro x hx
    obtain ⟨z, _, rfl⟩ := List.mem_map.mp hx
    exact le_max_right z 0
  have hdown : ∀ x ∈ (diffs closes).map (fun x => max (-x) 0), 0 ≤ x := by
    intro x hx
    obtain ⟨z, _, rfl⟩ := List.mem_map.mp hx
    exact le_max_right (-z) 0
  have hu0 : 0 ≤ u := emaList_nonneg _ ha0 ha1 _ hup u hu
  have hd0 : 0 < d :=
    replaceZero_pos _ (emaList_nonneg _ ha0 ha1 _ hdown) d hd
  have hrs : 0 ≤ u / d := div_nonneg hu0 hd0.le
  have h1p : (1 : ℚ) ≤ 1 + u / d := by linarith
  have hqpos : 0 < 100 / (1 + u / d) := by positivity
  have hqle : 100 / (1 + u / d) ≤ 100 := div_le_self (by norm_num) h1p
  constructor <;> simp only [] <;> linarith

/-- C7 — witness: the single RSI value of the close series `[1, 2]` (a pure
gain, so the smoothed loss is exactly 0 and the epsilon replacement fires)
lies in `[0, 100]`. -/
theorem rsi_in_range_witness :
    0 ≤ (rsiList 14 [1, 2]).headD 0 ∧ (rsiList 14 [1, 2]).headD 0 ≤ 100 := by
  refine rsi_in_range 14 (by norm_num) [1, 2] _ ?_
  norm_num [rsiList, diffs, emaSpan, emaList, replaceZero, epsRSI]

/-- Any non-signalling outcome of the decision tail leaves the state
untouched (only the OPPORTUNITY branch writes, and it reports `ok`). -/
theorem decideCore_ok_false (cfg : Config) (symbol : String) (st : BotState)
    (now : ℚ) (trend : Trend) (used : String) (last prev : IndRow) :
    (decideCore cfg symbol st now trend used last prev).1.ok = false →
    (decideCore cfg symbol st now trend used last prev).2 = st := by
  cases h1 : trendOKB cfg trend last prev
  · simp [decideCore, h1]
  · cases h2 : gatedBUY cfg trend last prev
    · cases he : cfg.ENABLE_OPP
      · simp [decideCore, h1, h2, he]
      · cases ho : gatedOPP cfg trend last prev
        · simp [decideCore, h1, h2, he, ho]
        · cases hc : cooldownActive st symbol now
          · simp [decideCore, h1, h2, he, ho, hc]
          · simp [decideCore, h1, h2, he, ho, hc]
    · simp [decideCore, h1, h2]

/-- C9 — per-symbol failure isolation (bot.py lines 325-358 and 513-517):
the signal loop produces one result per symbol no matter what the fetches
do; a raised fetch exception yields the typed `fetch-error` skip, an empty
1H or 1D frame the typed `no-1h-data` / `no-1d-data` skip, each leaving the
threaded state untouched; and *every* failed (`ok = false`) evaluation
leaves the state untouched, so a failing symbol never affects the
evaluation of the remaining symbols. -/
theorem per_symbol_isolation (cfg : Config)
    (env : String → Except String (List Candle) × Except String (List Candle))
    (now : ℚ) :
    (∀ coins st, ((runSignals cfg env coins st now).1).length = coins.length) ∧
    (∀ f1h f1d sym st, (∃ e, f1h = .error e) ∨ (∃ e, f1d = .error e) →
      evaluate_signals cfg f1h f1d sym st now = (failRes .fetchError, st)) ∧
    (∀ d sym st,
      evaluate_signals cfg (.ok []) (.ok d) sym st now = (failRes .no1hData, st)) ∧
    (∀ h1 sym st, h1 ≠ [] →
      evaluate_signals cfg (.ok h1) (.ok []) sym st now = (failRes .no1dData, st)) ∧
    (∀ f1h f1d sym st, (evaluate_signals cfg f1h f1d sym st now).1.ok = false →
      (evaluate_signals cfg f1h f1d sym st now).2 = st) := by
  refine ⟨?_, ?_, ?_, ?_, ?_⟩
  · intro coins
    induction coins with
    | nil => intro st; rfl
    | cons c rest ih =>
      intro st
      simp [runSignals, ih]
  · rintro f1h f1d sym st (⟨e, rfl⟩ | ⟨e, rfl⟩)
    · cases f1d <;> rfl
    · cases f1h <;> rfl
  · intro d sym st
    rfl
  · intro h1 sym st hne
    simp [evaluate_signals, hne]
  · intro f1h f1d sym st
    cases f1h with
    | error e => simp [evaluate_signals]
    | ok h1 =>
      cases f1d with
      | error e => simp [evaluate_signals]
      | ok d1 =>
        simp only [evaluate_signals]
        split
        · simp
        · split
          · simp
          · split
            · simp
            · split
              · simp
              · split
                · simp
                · exact decideCore_ok_false cfg sym st now _ _ _ _

/-- C9 — witness: with every provider throwing, a two-symbol run still
yields two per-symbol results, and each evaluation is the typed
`fetch-error` skip with an untouched state. -/
theorem per_symbol_isolation_witness :
    ((runSignals cfg0 (fun _ => (Except.error "net down", Except.error "net down"))
      ["BTC", "ETH"] defaultState 0).1).length = 2 ∧
    evaluate_signals cfg0 (Except.error "net down") (Except.error "net down")
      "BTC" defaultState 0 = (failRes .fetchError, defaultState) :=
  ⟨(per_symbol_isolation cfg0
      (fun _ => (Except.error "net down", Except.error "net down")) 0).1
      ["BTC", "ETH"] defaultState,
   (per_symbol_isolation cfg0
      (fun _ => (Except.error "net down", Except.error "net down")) 0).2.1
      _ _ "BTC" defaultState (Or.inl ⟨"net down", rfl⟩)⟩

/-- The 4H bin edge is the 4-hour ceiling. -/
theorem bucketEnd4h_eq (t : ℕ) : bucketEnd4h t = 4 * ((t + 3) / 4) := by
  unfold bucketEnd4h
  split <;> omega

/-- Bin edges are monotone in the timestamp. -/
theorem bucketEnd4h_mono {s t : ℕ} (h : s ≤ t) : bucketEnd4h s ≤ bucketEnd4h t := by
  rw [bucketEnd4h_eq, bucketEnd4h_eq]
  have h2 : (s + 3) / 4 ≤ (t + 3) / 4 := Nat.div_le_div_right (by omega)
  omega

/-- Deduplicating a run of one repeated label followed by labels it does not
reappear in keeps a single copy in front. -/
theorem dedup_replicate_append {b : ℕ} {m : List ℕ} (hb : b ∉ m) :
    ∀ k, (List.replicate (k + 1) b ++ m).dedup = b :: m.dedup := by
  intro k
  induction k with
  | zero =>
    rw [List.replicate_succ, List.replicate_zero, List.cons_append, List.nil_append,
      List.dedup_cons_of_not_mem hb]
  | succ k ih =>
    rw [List.replicate_succ, List.cons_append, List.dedup_cons_of_mem, ih]
    exact List.mem_append_left _ (List.mem_replicate.mpr ⟨Nat.succ_ne_zero k, rfl⟩)

/-- The first element surviving `dropWhile` fails the predicate. -/
theorem dropWhile_head_false {α : Type} (p : α → Bool) :
    ∀ (l : List α) (y : α) (ys : List α), l.dropWhile p = y :: ys → p y = false := by
  intro l
  induction l with
  | nil =>
    intro y ys h
    simp [List.dropWhile] at h
  | cons a t ih =>
    intro y ys h
    rw [List.dropWhile_cons] at h
    by_cases hpa : p a = true
    · rw [if_pos hpa] at h
      exact ih y ys h
    · rw [if_neg hpa] at h
      injection h with h1 _
      subst h1
      simp only [Bool.not_eq_true] at hpa
      exact hpa

/-- Fuel-indexed induction for the resampler equivalence. -/
theorem resample_agg_eq_ref_aux :
    ∀ (n : ℕ) (cs : List Candle), cs.length ≤ n →
      cs.Pairwise (fun a b => a.ts < b.ts) →
      resample4hAgg cs = resample4hRef cs := by
  intro n
  induction n with
  | zero =>
    intro cs hl _
    have h0 : cs = [] := List.length_eq_zero.mp (Nat.le_zero.mp hl)
    subst h0
    simp [resample4hAgg, bucketLabels, resample4hRef]
  | succ n ih =>
    intro cs hl hp
    match cs with
    | [] => simp [resample4hAgg, bucketLabels, resample4hRef]
    | x :: xs =>
      have hxle : ∀ y ∈ xs, x.ts < y.ts := (List.pairwise_cons.mp hp).1
      have hpxs : xs.Pairwise (fun a b => a.ts < b.ts) := (List.pairwise_cons.mp hp).2
      have hble : ∀ y ∈ xs, bucketEnd4h x.ts ≤ bucketEnd4h y.ts :=
        fun y hy => bucketEnd4h_mono (Nat.le_of_lt (hxle y hy))
      have hsplit :
          xs.takeWhile (fun z => decide (bucketEnd4h z.ts = bucketEnd4h x.ts)) ++
            xs.dropWhile (fun z => decide (bucketEnd4h z.ts = bucketEnd4h x.ts)) = xs :=
        List.takeWhile_append_dropWhile _ _
      have htake : ∀ y ∈ xs.takeWhile (fun z => decide (bucketEnd4h z.ts = bucketEnd4h x.ts)),
          bucketEnd4h y.ts = bucketEnd4h x.ts := by
        intro y hy
        have h := List.mem_takeWhile_imp hy
        simpa using h
      have hdrop : ∀ y ∈ xs.dropWhile (fun z => decide (bucketEnd4h z.ts = bucketEnd4h x.ts)),
          bucketEnd4h x.ts < bucketEnd4h y.ts := by
        cases hd : xs.dropWhile (fun z => decide (bucketEnd4h z.ts = bucketEnd4h x.ts)) with
        | nil =>
          intro y hy
          simp at hy
        | cons y₀ ys =>
          have hy₀p : decide (bucketEnd4h y₀.ts = bucketEnd4h x.ts) = false :=
            dropWhile_head_false _ xs y₀ ys hd
          have hy₀ne : bucketEnd4h y₀.ts ≠ bucketEnd4h x.ts := of_decide_eq_false hy₀p
          have hy₀mem : y₀ ∈ xs := by
            have hsub := (@List.dropWhile_suffix Candle xs
              (fun z => decide (bucketEnd4h z.ts = bucketEnd4h x.ts))).sublist
            rw [hd] at hsub
            exact hsub.subset (by simp)
          have hy₀gt : bucketEnd4h x.ts < bucketEnd4h y₀.ts :=
            lt_of_le_of_ne (hble y₀ hy₀mem) (Ne.symm hy₀ne)
          have hpd : (y₀ :: ys).Pairwise (fun a b => a.ts < b.ts) := by
            have hsub := (@List.dropWhile_suffix Candle xs
              (fun z => decide (bucketEnd4h z.ts = bucketEnd4h x.ts))).sublist
            rw [hd] at hsub
            exact List.Pairwise.sublist hsub hpxs
          intro y hy
          rcases List.mem_cons.mp hy with rfl | hymem
          · exact hy₀gt
          · have hlt : y₀.ts < y.ts := (List.pairwise_cons.mp hpd).1 y hymem
            exact lt_of_lt_of_le hy₀gt (bucketEnd4h_mono hlt.le)
      have hmapt :
          (xs.takeWhile (fun z => decide (bucketEnd4h z.ts = bucketEnd4h x.ts))).map
              (fun y => bucketEnd4h y.ts)
            = List.replicate
              (xs.takeWhile (fun z => decide (bucketEnd4h z.ts = bucketEnd4h x.ts))).length
              (bucketEnd4h x.ts) := by
        rw [List.eq_replicate_iff]
        refine ⟨by simp, ?_⟩
        intro z hz
        obtain ⟨y, hy, rfl⟩ := List.mem_map.mp hz
        exact htake y hy
      have hnotmem : bucketEnd4h x.ts ∉
          (xs.dropWhile (fun z => decide (bucketEnd4h z.ts = bucketEnd4h x.ts))).map
            (fun y => bucketEnd4h y.ts) := by
        intro hmem
        obtain ⟨y, hy, hEq⟩ := List.mem_map.mp hmem
        exact (ne_of_lt (hdrop y hy)) hEq.symm
      have hlabels : bucketLabels (x :: xs)
          = bucketEnd4h x.ts ::
            bucketLabels (xs.dropWhile (fun z => decide (bucketEnd4h z.ts = bucketEnd4h x.ts))) := by
        unfold bucketLabels
        rw [List.map_cons]
        conv_lhs => rw [← hsplit]
        rw [List.map_append, hmapt, ← List.cons_append, ← List.replicate_succ]
        exact dedup_replicate_append hnotmem _
      have hfilter_head :
          (x :: xs).filter (fun z => decide (bucketEnd4h z.ts = bucketEnd4h x.ts))
            = x :: xs.takeWhile (fun z => decide (bucketEnd4h z.ts = bucketEnd4h x.ts)) := by
        rw [List.filter_cons_of_pos (by simp)]
        congr 1
        conv_lhs => rw [← hsplit]
        rw [List.filter_append,
          List.filter_eq_self.mpr (fun y hy => by simpa using htake y hy),
          List.filter_eq_nil_iff.mpr (fun y hy => by simpa using (ne_of_lt (hdrop y hy)).symm),
          List.append_nil]
      have htail : ∀ b' ∈ bucketLabels
            (xs.dropWhile (fun z => decide (bucketEnd4h z.ts = bucketEnd4h x.ts))),
          aggBucket (x :: xs) b'
            = aggBucket (xs.dropWhile (fun z => decide (bucketEnd4h z.ts = bucketEnd4h x.ts))) b' := by
        intro b' hb'
        have hb'mem : b' ∈
            (xs.dropWhile (fun z => decide (bucketEnd4h z.ts = bucketEnd4h x.ts))).map
              (fun y => bucketEnd4h y.ts) := List.mem_dedup.mp hb'
        obtain ⟨y', hy', rfl⟩ := List.mem_map.mp hb'mem
        have hbgt : bucketEnd4h x.ts < bucketEnd4h y'.ts := hdrop y' hy'
        have hfe : (x :: xs).filter (fun z => decide (bucketEnd4h z.ts = bucketEnd4h y'.ts))
            = (xs.dropWhile (fun z => decide (bucketEnd4h z.ts = bucketEnd4h x.ts))).filter
                (fun z => decide (bucketEnd4h z.ts = bucketEnd4h y'.ts)) := by
          rw [List.filter_cons_of_neg (by simpa using (ne_of_lt hbgt))]
          conv_lhs => rw [← hsplit]
          rw [List.filter_append, List.filter_eq_nil_iff.mpr ?side, List.nil_append]
          case side =>
            intro y hy
            have hyb := htake y hy
            simp only [decide_eq_true_eq]
            rw [hyb]
            exact ne_of_lt hbgt
        simp only [aggBucket]
        rw [hfe]
      have hlen : (xs.dropWhile (fun z => decide (bucketEnd4h z.ts = bucketEnd4h x.ts))).length ≤ n := by
        have h1 := (@List.dropWhile_suffix Candle xs
          (fun z => decide (bucketEnd4h z.ts = bucketEnd4h x.ts))).length_le
        have h2 : xs.length ≤ n := by
          simp only [List.length_cons] at hl
          omega
        omega
      have hpdrop : (xs.dropWhile (fun z => decide (bucketEnd4h z.ts = bucketEnd4h x.ts))).Pairwise
          (fun a b => a.ts < b.ts) :=
        List.Pairwise.sublist (List.dropWhile_suffix _).sublist hpxs
      calc resample4hAgg (x :: xs)
          = (bucketLabels (x :: xs)).map (aggBucket (x :: xs)) := rfl
        _ = aggBucket (x :: xs) (bucketEnd4h x.ts) ::
              (bucketLabels (xs.dropWhile (fun z => decide (bucketEnd4h z.ts = bucketEnd4h x.ts)))).map
                (aggBucket (x :: xs)) := by rw [hlabels, List.map_cons]
        _ = aggBucket (x :: xs) (bucketEnd4h x.ts) ::
              resample4hAgg (xs.dropWhile (fun z => decide (bucketEnd4h z.ts = bucketEnd4h x.ts))) := by
              rw [List.map_congr_left htail]
              rfl
        _ = aggBucket (x :: xs) (bucketEnd4h x.ts) ::
              resample4hRef (xs.dropWhile (fun z => decide (bucketEnd4h z.ts = bucketEnd4h x.ts))) := by
              rw [ih _ hlen hpdrop]
        _ = resample4hRef (x :: xs) := by
              conv_rhs => rw [resample4hRef]
              congr 1
              simp only [aggBucket, hfilter_head]

/-- C1 — amended: for every 1H candle sequence with strictly ascending
timestamps, the resampler's aggregation equals the reference aggregation in
which fine candles are grouped into right-closed, right-labeled 4-hour
buckets with bucket open = first fine **close**, high = max of fine
**closes**, low = min of fine **closes**, close = last fine close, volume =
sum of fine volumes, and every bucket containing at least one fine candle is
emitted — the partial trailing bucket included. -/
theorem resample_agg_eq_ref (cs : List Candle)
    (hs : cs.Pairwise (fun a b => a.ts < b.ts)) :
    resample4hAgg cs = resample4hRef cs :=
  resample_agg_eq_ref_aux cs.length cs le_rfl hs

/-- C1 — witness: the equivalence evaluated on a concrete three-candle 1H
sequence spanning two buckets. -/
theorem resample_agg_eq_ref_witness :
    resample4hAgg [⟨1, 10, 30, 5, 20, 1⟩, ⟨4, 30, 50, 25, 40, 2⟩, ⟨5, 41, 60, 35, 45, 3⟩]
      = resample4hRef [⟨1, 10, 30, 5, 20, 1⟩, ⟨4, 30, 50, 25, 40, 2⟩, ⟨5, 41, 60, 35, 45, 3⟩] :=
  resample_agg_eq_ref _ (by decide)

/-- C1 — counterexample.  On the 1H closes-sequence
`ts = [1, 4, 5]`, the code's output differs from the claim's reference
aggregation: the code emits the trailing partial bucket (labels `[4, 8]`
instead of `[4]`), and its bucket open is the first fine *close* (20), not
the first fine *open* (10). -/
theorem resample_claim_counterexample :
    ((resample4hAgg [⟨1, 10, 30, 5, 20, 1⟩, ⟨4, 30, 50, 25, 40, 2⟩, ⟨5, 41, 60, 35, 45, 3⟩]).length = 2 ∧
     (resample4hClaim [⟨1, 10, 30, 5, 20, 1⟩, ⟨4, 30, 50, 25, 40, 2⟩, ⟨5, 41, 60, 35, 45, 3⟩]).length = 1) ∧
    ((resample4hAgg [⟨1, 10, 30, 5, 20, 1⟩, ⟨4, 30, 50, 25, 40, 2⟩, ⟨5, 41, 60, 35, 45, 3⟩]).headD default).o = 20 ∧
    ((resample4hClaim [⟨1, 10, 30, 5, 20, 1⟩, ⟨4, 30, 50, 25, 40, 2⟩, ⟨5, 41, 60, 35, 45, 3⟩]).headD default).o = 10 ∧
    resample4hAgg [⟨1, 10, 30, 5, 20, 1⟩, ⟨4, 30, 50, 25, 40, 2⟩, ⟨5, 41, 60, 35, 45, 3⟩]
      ≠ resample4hClaim [⟨1, 10, 30, 5, 20, 1⟩, ⟨4, 30, 50, 25, 40, 2⟩, ⟨5, 41, 60, 35, 45, 3⟩] := by
  have hlen1 : (resample4hAgg [⟨1, 10, 30, 5, 20, 1⟩, ⟨4, 30, 50, 25, 40, 2⟩,
      ⟨5, 41, 60, 35, 45, 3⟩]).length = 2 := rfl
  have hlen2 : (resample4hClaim [⟨1, 10, 30, 5, 20, 1⟩, ⟨4, 30, 50, 25, 40, 2⟩,
      ⟨5, 41, 60, 35, 45, 3⟩]).length = 1 := rfl
  refine ⟨⟨hlen1, hlen2⟩, rfl, rfl, fun h => ?_⟩
  have hc := congrArg List.length h
  rw [hlen1, hlen2] at hc
  exact absurd hc (by decide)

end Bot
